import Mathlib

/-!
Verification of the routing and bookkeeping core of the
`migrate_to_redis.py` script: the `RedisClusterSimulator` class
(slot hashing, node assignment, scalar/hash/set storage, pattern
queries) and the `KeyValueMapper.map_order` transformation.

The Python code is shallowly embedded: Python dicts become association
lists (`List (String × _)`) with Python's update semantics (replace in
place if the key is present, append otherwise), Python sets become
duplicate-free lists built by guarded insertion, and Python's unbounded
integers become `Nat`.  The one place where the Python code can raise a
runtime exception (`hget` indexing a string with a string) is embedded
with an `Except` result type; every other operation is exception-free
in Python and is embedded as a total function.
-/

namespace RedisSim

/-- Boolean contiguous-sublist test, the embedding of Python's
substring operator `field in s` used by `hget` on string values. -/
def listIsInfix {α : Type} [BEq α] (needle : List α) (hay : List α) : Bool :=
  match hay with
  | [] => needle.isEmpty
  | _ :: t => needle.isPrefixOf hay || listIsInfix needle t

/-- A value stored in `self.data`: either a scalar string (stored by
`set`) or a field-to-value mapping (stored by `hset`). -/
inductive RVal where
  | str (s : String)
  | hash (m : List (String × String))
  deriving DecidableEq

/-- The mutable state of `RedisClusterSimulator.__init__`:
`self.data`, `self.sets`, `self.slots`, `self.node_assignment`. -/
structure SimState where
  data : List (String × RVal)
  sets : List (String × List String)
  slots : List (String × Nat)
  nodeAssignment : List (String × String)
  deriving DecidableEq

/-- The freshly constructed simulator: four empty dicts. -/
def initState : SimState := ⟨[], [], [], []⟩

/-- Python dict read `d.get(k)` / the guard `k in d`: the value of the
first (and, for states built by the operations, only) binding of `k`. -/
def dictGet {α : Type} (d : List (String × α)) (k : String) : Option α :=
  match d with
  | [] => none
  | (a, b) :: t => if a = k then some b else dictGet t k

/-- Python dict assignment `d[k] = v`: replace the binding in place when
the key is present, append a new binding otherwise. -/
def dictSet {α : Type} (d : List (String × α)) (k : String) (v : α) :
    List (String × α) :=
  if (dictGet d k).isSome then
    d.map (fun p => if p.1 = k then (k, v) else p)
  else
    d ++ [(k, v)]

/-- The keys of a dict, in insertion order (Python `list(d.keys())`). -/
def dictKeys {α : Type} (d : List (String × α)) : List String :=
  d.map Prod.fst

section DictLemmas

variable {α : Type}

theorem dictGet_nil (k : String) : dictGet ([] : List (String × α)) k = none :=
  rfl

theorem dictGet_cons (a : String) (b : α) (t : List (String × α)) (k : String) :
    dictGet ((a, b) :: t) k = if a = k then some b else dictGet t k :=
  rfl

theorem dictGet_map_replace_self (d : List (String × α)) (k : String) (v : α)
    (h : (dictGet d k).isSome) :
    dictGet (d.map fun p => if p.1 = k then (k, v) else p) k = some v := by
  induction d with
  | nil => simp [dictGet] at h
  | cons p t ih =>
    rcases p with ⟨a, b⟩
    by_cases hp : a = k
    · subst hp
      rw [List.map_cons]
      rw [show (if ((a, b) : String × α).1 = a then (a, v) else (a, b)) = (a, v)
            from if_pos rfl]
      rw [dictGet_cons, if_pos rfl]
    · rw [dictGet_cons, if_neg hp] at h
      rw [List.map_cons]
      rw [show (if ((a, b) : String × α).1 = k then (k, v) else (a, b)) = (a, b)
            from if_neg hp]
      rw [dictGet_cons, if_neg hp]
      exact ih h

theorem dictGet_append_single_self (d : List (String × α)) (k : String) (v : α)
    (h : dictGet d k = none) :
    dictGet (d ++ [(k, v)]) k = some v := by
  induction d with
  | nil => rw [List.nil_append, dictGet_cons, if_pos rfl]
  | cons p t ih =>
    rcases p with ⟨a, b⟩
    by_cases hp : a = k
    · rw [dictGet_cons, if_pos hp] at h
      exact absurd h (by simp)
    · rw [dictGet_cons, if_neg hp] at h
      rw [List.cons_append, dictGet_cons, if_neg hp]
      exact ih h

theorem dictGet_map_replace_ne (d : List (String × α)) (k k' : String) (v : α)
    (h : k' ≠ k) :
    dictGet (d.map fun p => if p.1 = k then (k, v) else p) k' = dictGet d k' := by
  induction d with
  | nil => rfl
  | cons p t ih =>
    rcases p with ⟨a, b⟩
    rw [List.map_cons]
    by_cases hp : a = k
    · subst hp
      rw [show (if ((a, b) : String × α).1 = a then (a, v) else (a, b)) = (a, v)
            from if_pos rfl]
      rw [dictGet_cons, dictGet_cons]
      rw [if_neg (fun he => h he.symm), if_neg (fun he => h he.symm)]
      exact ih
    · rw [show (if ((a, b) : String × α).1 = k then (k, v) else (a, b)) = (a, b)
            from if_neg hp]
      rw [dictGet_cons, dictGet_cons]
      by_cases ha : a = k'
      · rw [if_pos ha, if_pos ha]
      · rw [if_neg ha, if_neg ha]
        exact ih

theorem dictGet_append_single_ne (d : List (String × α)) (k k' : String) (v : α)
    (h : k' ≠ k) :
    dictGet (d ++ [(k, v)]) k' = dictGet d k' := by
  induction d with
  | nil =>
    rw [List.nil_append, dictGet_cons, if_neg (fun he => h he.symm)]
  | cons p t ih =>
    rcases p with ⟨a, b⟩
    rw [List.cons_append, dictGet_cons, dictGet_cons]
    by_cases ha : a = k'
    · rw [if_pos ha, if_pos ha]
    · rw [if_neg ha, if_neg ha]
      exact ih

theorem dictGet_dictSet_self (d : List (String × α)) (k : String) (v : α) :
    dictGet (dictSet d k v) k = some v := by
  unfold dictSet
  split
  case isTrue h => exact dictGet_map_replace_self d k v h
  case isFalse h =>
    apply dictGet_append_single_self
    cases hl : dictGet d k with
    | none => rfl
    | some w => rw [hl] at h; simp at h

theorem dictGet_dictSet_ne (d : List (String × α)) (k k' : String) (v : α)
    (h : k' ≠ k) :
    dictGet (dictSet d k v) k' = dictGet d k' := by
  unfold dictSet
  split
  · exact dictGet_map_replace_ne d k k' v h
  · exact dictGet_append_single_ne d k k' v h

theorem dictKeys_dictSet (d : List (String × α)) (k : String) (v : α) :
    dictKeys (dictSet d k v) =
      if (dictGet d k).isSome then dictKeys d else dictKeys d ++ [k] := by
  unfold dictSet dictKeys
  split
  · rw [List.map_map]
    apply List.map_congr_left
    intro p _
    by_cases hp : p.1 = k
    · simp [Function.comp, hp]
    · simp [Function.comp, hp]
  · simp

theorem dictGet_isSome_iff_mem_keys (d : List (String × α)) (k : String) :
    (dictGet d k).isSome = true ↔ k ∈ dictKeys d := by
  induction d with
  | nil => simp [dictGet, dictKeys]
  | cons p t ih =>
    rcases p with ⟨a, b⟩
    by_cases hp : a = k
    · subst hp
      simp [dictGet_cons, dictKeys]
    · rw [dictGet_cons, if_neg hp]
      rw [show dictKeys (((a, b) : String × α) :: t) = a :: dictKeys t from rfl]
      rw [List.mem_cons]
      rw [ih]
      constructor
      · exact Or.inr
      · rintro (he | hm)
        · exact absurd he.symm hp
        · exact hm

end DictLemmas

/-- `_crc16` (lines 288-294): `hash_val = ((hash_val << 5) + hash_val) + ord(char)`
accumulated without intermediate truncation, masked with `0xFFFF` once
at the end.  Characters contribute their code points, as Python's
`ord` does. -/
def _crc16 (cs : List Char) : Nat :=
  (cs.foldl (fun h c => ((h <<< 5) + h) + c.toNat) 0) &&& 0xFFFF

/-- The hash-tag slice `_get_slot` extracts (lines 299-302): the
characters strictly between the first `{` and the first `}` of the key
(Python `key[key.index(chr(123))+1 : key.index(chr(125))]`; when the
first `}` comes before the first `{` the slice is empty, exactly as the
Python slice is). -/
def extractTag (key : String) : List Char :=
  let cs := key.data
  let s := cs.findIdx (fun c => c == '{') + 1
  let e := cs.findIdx (fun c => c == '}')
  (cs.drop s).take (e - s)

/-- The character sequence `_get_slot` (lines 296-303) actually hashes:
the extracted tag slice when the key contains both `{` and `}`, the
whole key otherwise. -/
def hashInput (key : String) : List Char :=
  if key.data.contains '{' && key.data.contains '}' then extractTag key
  else key.data

/-- `_get_slot` (lines 296-303): hash-tag extraction followed by
`self._crc16(key) % 16384`. -/
def _get_slot (key : String) : Nat :=
  _crc16 (hashInput key) % 16384

/-- `_get_node` (lines 305-314): the slot-range to master-node mapping. -/
def _get_node (slot : Nat) : String :=
  if slot < 4096 then "Master-0 (port 7000)"
  else if slot < 8192 then "Master-1 (port 7001)"
  else if slot < 12288 then "Master-2 (port 7002)"
  else "Master-3 (port 7003)"

/-- The node string of the shard with index `i`, for stating the
partition property of `_get_node`. -/
def masterName (i : Nat) : String :=
  match i with
  | 0 => "Master-0 (port 7000)"
  | 1 => "Master-1 (port 7001)"
  | 2 => "Master-2 (port 7002)"
  | _ => "Master-3 (port 7003)"

/-- Modelled from the spec: the master-replica pairing is not a
function in the source (it appears only in the `cluster_info` report
text, pairing master `i` on port `7000+i` with the replica on port
`7004+i`), so it is modelled from the spec's words: "fixed 1:1 pairing
(shard i <-> replica i); stateless, derivable from shard index". -/
def replica_for (shard : Nat) : Nat := shard

/-- `hset` (lines 316-328): store a field mapping, record slot and node,
return `True`. -/
def hset (st : SimState) (key : String) (mapping : List (String × String)) :
    Bool × SimState :=
  let slot := _get_slot key
  let node := _get_node slot
  (true,
    { st with
      data := dictSet st.data key (RVal.hash mapping)
      slots := dictSet st.slots key slot
      nodeAssignment := dictSet st.nodeAssignment key node })

/-- `hget` (lines 330-334): `if key in self.data and field in self.data[key]:
return self.data[key][field]` then `return None`.  When the stored value
is a scalar string, Python's `field in value` is a substring test, and
the subsequent `value[field]` raises `TypeError`; that raise is embedded
as the `Except.error` branch. -/
def hget (st : SimState) (key field : String) : Except String (Option String) :=
  match dictGet st.data key with
  | none => Except.ok none
  | some (RVal.str s) =>
      if listIsInfix field.data s.data then
        Except.error "TypeError: string indices must be integers"
      else Except.ok none
  | some (RVal.hash m) => Except.ok (dictGet m field)

/-- `hgetall` (lines 336-338): `self.data.get(key, \x7b\x7d)`. -/
def hgetall (st : SimState) (key : String) : RVal :=
  (dictGet st.data key).getD (RVal.hash [])

/-- `set` (lines 340-348): store a scalar, record slot and node, return
`True`. -/
def set (st : SimState) (key value : String) : Bool × SimState :=
  let slot := _get_slot key
  let node := _get_node slot
  (true,
    { st with
      data := dictSet st.data key (RVal.str value)
      slots := dictSet st.slots key slot
      nodeAssignment := dictSet st.nodeAssignment key node })

/-- `get` (lines 350-352): `self.data.get(key)`. -/
def get (st : SimState) (key : String) : Option RVal :=
  dictGet st.data key

/-- `sadd` (lines 354-369): create an empty set (and record slot/node)
on first use of the key, then add each member not already present,
returning the number of members actually added. -/
def sadd (st : SimState) (key : String) (members : List String) :
    Nat × SimState :=
  let slot := _get_slot key
  let node := _get_node slot
  let st1 :=
    if (dictGet st.sets key).isSome then st
    else
      { st with
        sets := dictSet st.sets key []
        slots := dictSet st.slots key slot
        nodeAssignment := dictSet st.nodeAssignment key node }
  let cur := (dictGet st1.sets key).getD []
  let r := members.foldl
    (fun (p : Nat × List String) m =>
      if m ∈ p.2 then p else (p.1 + 1, p.2 ++ [m]))
    (0, cur)
  (r.1, { st1 with sets := dictSet st1.sets key r.2 })

/-- `smembers` (lines 371-373): `self.sets.get(key, set())`.  The Python
set is embedded as the duplicate-free list `sadd` maintains. -/
def smembers (st : SimState) (key : String) : List String :=
  (dictGet st.sets key).getD []

/-- `keys` (lines 375-385): `"*"` returns every key of both dicts;
otherwise every `*` is stripped from the pattern
(`pattern.replace("*", "")`) and the keys starting with the remainder
are returned. -/
def keys (st : SimState) (pattern : String) : List String :=
  let allKeys := dictKeys st.data ++ dictKeys st.sets
  if pattern = "*" then allKeys
  else
    let pre := pattern.data.filter (fun c => c != '*')
    allKeys.filter (fun k => pre.isPrefixOf k.data)

/-- The 16-bit rolling hash exactly as the spec's recurrence words it:
`h = ((h << 5) + h + byte) & 0xFFFF` applied at every step (the code's
`_crc16` instead accumulates unmasked and masks once at the end; the
two are compared in the slot-hash theorem). -/
def crc16Spec (cs : List Char) : Nat :=
  cs.foldl (fun h c => (((h <<< 5) + h) + c.toNat) &&& 0xFFFF) 0

/-- A key "contains the hash-tag segment `{t}`" in the sense of the
claim's words: the literal text `\x7b` ++ t ++ `\x7d` occurs in the key as a
contiguous substring. -/
def containsSegment (t k : String) : Bool :=
  listIsInfix ("\x7b" ++ t ++ "\x7d").data k.data

/-- The pattern-matching rules exactly as the spec words them, for
comparison with the code's `keys`: `"*"` matches everything; a trailing
`*` is a prefix match on the literal before it; a leading `*` is a
suffix match on the literal after it; anything else is a substring
containment match. -/
def specPatternMatch (pattern key : String) : Bool :=
  let p := pattern.data
  let k := key.data
  if p = ['*'] then true
  else if p.getLast? = some '*' then p.dropLast.isPrefixOf k
  else
    match p with
    | '*' :: rest => rest.isSuffixOf k
    | _ => listIsInfix p k

end RedisSim

namespace KeyValueMapper

/-- One row of the `orders` table as `map_order` receives it:
`(order_id, customer_id, order_date, status, total_amount,
shipping_address)`.  `order_id` and `customer_id` are Python ints;
`status` and `shipping_address` are nullable TEXT columns, embedded as
`Option String`; `total_amount` is a REAL column that `map_order` only
ever passes through `str(...)`, so it is embedded directly by that
string rendering. -/
structure OrderRow where
  order_id : Int
  customer_id : Int
  order_date : String
  status : Option String
  total_amount : String
  shipping_address : Option String
  deriving DecidableEq

/-- Python's `x or default` on a nullable string: `None` and the empty
string are falsy and yield the default. -/
def pyOrStr (x : Option String) (d : String) : String :=
  match x with
  | none => d
  | some s => if s = "" then d else s

/-- One entry of the `indexes` list returned by the mapper: the dict
`\x7b"key": ..., "value": ..., "type": "SET"\x7d` (the `"type"` entry being
optional). -/
structure IndexEntry where
  key : String
  value : String
  typ : Option String
  deriving DecidableEq

/-- The dict returned by the `map_*` static methods: `main_key`,
`main_value` (field list in source order) and `indexes`. -/
structure MapResult where
  main_key : String
  main_value : List (String × String)
  indexes : List IndexEntry
  deriving DecidableEq

/-- `KeyValueMapper.map_order` (lines 231-258). -/
def map_order (row : OrderRow) : MapResult :=
  let status := pyOrStr row.status "pending"
  { main_key := "order:" ++ toString row.order_id
    main_value :=
      [ ("order_id", toString row.order_id)
      , ("customer_id", toString row.customer_id)
      , ("order_date", row.order_date)
      , ("status", status)
      , ("total_amount", row.total_amount)
      , ("shipping_address", pyOrStr row.shipping_address "") ]
    indexes :=
      [ ⟨"idx:customer:" ++ toString row.customer_id ++ ":orders",
          toString row.order_id, some "SET"⟩
      , ⟨"idx:orders:status:" ++ status,
          toString row.order_id, some "SET"⟩ ] }

end KeyValueMapper

open RedisSim KeyValueMapper

section HashLemmas

theorem mask_eq_mod (x : Nat) : x &&& 0xFFFF = x % 65536 := by
  have h : (0xFFFF : Nat) = 2 ^ 16 - 1 := by norm_num
  rw [h, Nat.and_pow_two_sub_one_eq_mod]

theorem step_unmasked_eq (h : Nat) (c : Char) :
    ((h <<< 5) + h) + c.toNat = h * 33 + c.toNat := by
  rw [Nat.shiftLeft_eq]
  have h32 : (2 : Nat) ^ 5 = 32 := by norm_num
  rw [h32]
  ring

theorem step_masked_eq (h : Nat) (c : Char) :
    (((h <<< 5) + h) + c.toNat) &&& 0xFFFF = (h * 33 + c.toNat) % 65536 := by
  rw [mask_eq_mod, step_unmasked_eq]

theorem foldl_masked_eq_mod (cs : List Char) (h : Nat) :
    cs.foldl (fun a c => (((a <<< 5) + a) + c.toNat) &&& 0xFFFF) (h % 65536)
      = (cs.foldl (fun a c => ((a <<< 5) + a) + c.toNat) h) % 65536 := by
  induction cs generalizing h with
  | nil => simp
  | cons c t ih =>
    rw [List.foldl_cons, List.foldl_cons]
    rw [step_masked_eq]
    have hmod : ((h % 65536) * 33 + c.toNat) % 65536
        = (h * 33 + c.toNat) % 65536 := by omega
    rw [hmod]
    rw [step_unmasked_eq]
    exact ih (h * 33 + c.toNat)

theorem crc16_eq_crc16Spec (cs : List Char) : _crc16 cs = crc16Spec cs := by
  unfold _crc16 crc16Spec
  rw [mask_eq_mod]
  exact (foldl_masked_eq_mod cs 0).symm

end HashLemmas

/-- C4: for every non-empty key `k`, `_get_slot k` equals the fold of
the spec's per-step-masked recurrence `h = ((h << 5) + h + byte) & 0xFFFF`
seeded at 0 over the hashed character sequence (the key, or its
hash-tag slice when one is extracted), taken mod 16384; the code's
variant `_crc16`, which masks once at the end, computes the same value,
and the result always lies in `[0, 16384)`.  Determinism is inherent:
the embedding shows `_get_slot` is a pure function of the key alone. -/
theorem slot_for_spec_fold (k : String) (hk : k ≠ "") :
    _get_slot k = crc16Spec (hashInput k) % 16384
    ∧ _crc16 (hashInput k) = crc16Spec (hashInput k)
    ∧ _get_slot k < 16384 := by
  refine ⟨?_, crc16_eq_crc16Spec _, ?_⟩
  · rw [_get_slot, crc16_eq_crc16Spec]
  · exact Nat.mod_lt _ (by norm_num)

/-- Witness for C4 at the concrete key `"order:1001"`. -/
theorem slot_for_spec_fold_witness :
    ("order:1001" ≠ "")
    ∧ (_get_slot "order:1001" = crc16Spec (hashInput "order:1001") % 16384
        ∧ _crc16 (hashInput "order:1001") = crc16Spec (hashInput "order:1001")
        ∧ _get_slot "order:1001" < 16384) :=
  ⟨by decide, slot_for_spec_fold "order:1001" (by decide)⟩

/-- C5: `_get_node` partitions the slot space `[0, 16384)` totally,
exhaustively and without overlap into the four shards with slot ranges
`[4096*i, 4096*(i+1))`; slot 5000 is owned by shard index 1
(`Master-1`), whose paired replica index is 1. -/
theorem shard_partition :
    (∀ s : Nat, s < 16384 →
      ∃! i : Nat, i < 4 ∧ 4096 * i ≤ s ∧ s < 4096 * (i + 1)
        ∧ _get_node s = masterName i)
    ∧ _get_node 5000 = "Master-1 (port 7001)"
    ∧ replica_for 1 = 1 := by
  refine ⟨?_, rfl, rfl⟩
  intro s hs
  refine ⟨s / 4096, ⟨by omega, by omega, by omega, ?_⟩, ?_⟩
  · unfold _get_node
    by_cases h0 : s < 4096
    · rw [if_pos h0]
      have he : s / 4096 = 0 := by omega
      rw [he]
      rfl
    · rw [if_neg h0]
      by_cases h1 : s < 8192
      · rw [if_pos h1]
        have he : s / 4096 = 1 := by omega
        rw [he]
        rfl
      · rw [if_neg h1]
        by_cases h2 : s < 12288
        · rw [if_pos h2]
          have he : s / 4096 = 2 := by omega
          rw [he]
          rfl
        · rw [if_neg h2]
          have he : s / 4096 = 3 := by omega
          rw [he]
          rfl
  · rintro j ⟨hj4, hj1, hj2, hjn⟩
    omega

/-- Witness for C5: the inner partition statement applied to slot 5000. -/
theorem shard_partition_witness :
    (5000 : Nat) < 16384
    ∧ ∃! i : Nat, i < 4 ∧ 4096 * i ≤ 5000 ∧ 5000 < 4096 * (i + 1)
        ∧ _get_node 5000 = masterName i :=
  ⟨by decide, shard_partition.1 5000 (by decide)⟩

/-- C6 counterexample: the keys `"{a}{b}"` and `"{b}"` both contain the
hash-tag segment `{b}` (with the same inner substring `b`), yet they are
assigned different slots: `_get_slot` only ever hashes the slice between
the FIRST `{` and the FIRST `}`, which is `a` for the first key and `b`
for the second.  This refutes the claim that any two keys sharing an
identical `{…}` segment are co-located. -/
theorem shared_segment_not_colocated :
    containsSegment "b" "{a}{b}" = true
    ∧ containsSegment "b" "{b}" = true
    ∧ _get_slot "{a}{b}" = 97 ∧ _get_slot "{b}" = 98 := by
  refine ⟨by decide, by decide, by decide, by decide⟩

/-- C6 amended: for all keys `k1`, `k2` that each contain both `{` and
`}`, if the slice strictly between the first `{` and the first `}` is
identical in both keys, then `_get_slot k1 = _get_slot k2`: slot
computation uses only the bytes of that first tag slice. -/
theorem same_first_tag_colocated (k1 k2 : String)
    (h11 : k1.data.contains '{' = true) (h12 : k1.data.contains '}' = true)
    (h21 : k2.data.contains '{' = true) (h22 : k2.data.contains '}' = true)
    (htag : extractTag k1 = extractTag k2) :
    _get_slot k1 = _get_slot k2 := by
  unfold _get_slot hashInput
  rw [h11, h12, h21, h22, htag]
  simp

/-- Witness for C6 amended: `"{t}a"` and `"b{t}"` share the first tag
slice `t` and land on the same slot. -/
theorem same_first_tag_colocated_witness :
    ("{t}a".data.contains '{' = true ∧ "{t}a".data.contains '}' = true
      ∧ "b{t}".data.contains '{' = true ∧ "b{t}".data.contains '}' = true
      ∧ extractTag "{t}a" = extractTag "b{t}")
    ∧ _get_slot "{t}a" = _get_slot "b{t}" :=
  ⟨⟨by decide, by decide, by decide, by decide, by decide⟩,
    same_first_tag_colocated "{t}a" "b{t}" (by decide) (by decide) (by decide)
      (by decide) (by decide)⟩

/-- C3 counterexample: neither slot computation nor store writes fail on
malformed keys.  The empty key is silently hashed to slot 0, a key with
`{` but no matching `}` is silently hashed over its full character
sequence (slot 6174 for `"\x7bab"`), and `set` on the empty key succeeds
normally, returning `True` and storing the value. -/
theorem malformed_keys_hash_silently :
    _get_slot "" = 0 ∧ _get_slot "\x7bab" = 6174
    ∧ (RedisSim.set initState "" "v").1 = true
    ∧ RedisSim.get ((RedisSim.set initState "" "v").2) "" = some (RVal.str "v") := by
  refine ⟨by decide, by decide, rfl, by decide⟩

/-- C3 amended: the code performs no key validation at all: a key whose
character sequence has no `}` (in particular any key with a `{` and no
matching `}`, and the empty key) is silently hashed over its full
character sequence; `set` accepts any key, including the empty one,
returning `True` and storing the value; the empty key hashes to slot 0. -/
theorem no_fail_fast_on_malformed (st : SimState) (k v : String)
    (h : k.data.contains '}' = false) :
    _get_slot k = _crc16 k.data % 16384
    ∧ (RedisSim.set st k v).1 = true
    ∧ RedisSim.get ((RedisSim.set st k v).2) k = some (RVal.str v)
    ∧ _get_slot "" = 0 := by
  refine ⟨?_, rfl, ?_, by decide⟩
  · unfold _get_slot hashInput
    rw [h]
    simp
  · exact dictGet_dictSet_self _ _ _

/-- Witness for C3 amended at the malformed key `"\x7bab"`. -/
theorem no_fail_fast_on_malformed_witness :
    ("\x7bab".data.contains '}' = false)
    ∧ (_get_slot "\x7bab" = _crc16 "\x7bab".data % 16384
        ∧ (RedisSim.set initState "\x7bab" "x").1 = true
        ∧ RedisSim.get ((RedisSim.set initState "\x7bab" "x").2) "\x7bab"
            = some (RVal.str "x")
        ∧ _get_slot "" = 0) :=
  ⟨by decide, no_fail_fast_on_malformed initState "\x7bab" "x" (by decide)⟩

/-- C7: `set k v` followed by `get k` returns the stored scalar, and a
second `set k w` unconditionally overwrites it (last-write-wins). -/
theorem set_get_roundtrip (st : SimState) (k v w : String) (hk : k ≠ "") :
    RedisSim.get ((RedisSim.set st k v).2) k = some (RVal.str v)
    ∧ RedisSim.get ((RedisSim.set ((RedisSim.set st k v).2) k w).2) k
        = some (RVal.str w) :=
  ⟨dictGet_dictSet_self _ _ _, dictGet_dictSet_self _ _ _⟩

/-- Witness for C7 at a concrete key and two values. -/
theorem set_get_roundtrip_witness :
    ("session:user1" ≠ "")
    ∧ (RedisSim.get ((RedisSim.set initState "session:user1" "active").2)
          "session:user1" = some (RVal.str "active")
        ∧ RedisSim.get ((RedisSim.set ((RedisSim.set initState "session:user1"
            "active").2) "session:user1" "idle").2) "session:user1"
          = some (RVal.str "idle")) :=
  ⟨by decide, set_get_roundtrip initState "session:user1" "active" "idle"
    (by decide)⟩

/-- Single-member `sadd` summarised: the returned count is 1 exactly
when the member was absent, the data dict is untouched, and the sets
dict maps the key to the old member list with the member appended when
absent. -/
theorem sadd_single (st : SimState) (k m : String) :
    (sadd st k [m]).1 = (if m ∈ (dictGet st.sets k).getD [] then 0 else 1)
    ∧ ((sadd st k [m]).2).data = st.data
    ∧ smembers ((sadd st k [m]).2) k =
        (if m ∈ (dictGet st.sets k).getD [] then (dictGet st.sets k).getD []
         else (dictGet st.sets k).getD [] ++ [m])
    ∧ dictKeys ((sadd st k [m]).2).sets =
        (if (dictGet st.sets k).isSome then dictKeys st.sets
         else dictKeys st.sets ++ [k]) := by
  cases hs : dictGet st.sets k with
  | none =>
    have hcur : dictGet (dictSet st.sets k ([] : List String)) k = some [] :=
      dictGet_dictSet_self _ _ _
    refine ⟨?_, ?_, ?_, ?_⟩
    · simp [sadd, hs, hcur]
    · simp [sadd, hs, hcur]
    · simp only [sadd, hs, Option.isSome_none, Bool.false_eq_true, if_false,
        hcur, smembers]
      simp [dictGet_dictSet_self]
    · simp only [sadd, hs, Option.isSome_none, Bool.false_eq_true, if_false,
        hcur]
      simp only [Option.getD_some, Option.getD_none, List.not_mem_nil,
        if_false, List.nil_append]
      rw [dictKeys_dictSet, if_pos (by rw [hcur]; rfl)]
      rw [dictKeys_dictSet, if_neg (by rw [hs]; simp)]
  | some l =>
    have hl : (dictGet st.sets k).isSome := by rw [hs]; rfl
    by_cases hm : m ∈ l
    · refine ⟨?_, ?_, ?_, ?_⟩
      · simp [sadd, hs, hm]
      · simp [sadd, hs]
      · simp only [sadd, hs, Option.isSome_some, if_true, Option.getD_some,
          hm, if_true, smembers]
        simp [dictGet_dictSet_self, hm]
      · simp only [sadd, hs, Option.isSome_some, if_true, Option.getD_some]
        rw [dictKeys_dictSet, if_pos hl]
    · refine ⟨?_, ?_, ?_, ?_⟩
      · simp [sadd, hs, hm]
      · simp [sadd, hs]
      · simp only [sadd, hs, Option.isSome_some, if_true, Option.getD_some,
          hm, if_false, smembers]
        simp [dictGet_dictSet_self, hm]
      · simp only [sadd, hs, Option.isSome_some, if_true, Option.getD_some]
        rw [dictKeys_dictSet, if_pos hl]

/-- C8: starting from any state in which `m` is not yet a member of the
set at `k`, `sadd k [m]` reports 1 added member, a second identical call
reports 0, no error occurs (the embedding is a total function),
afterwards `smembers k` contains `m` exactly once, and `smembers` on a
key that has never been used returns the empty set rather than an
absence signal. -/
theorem sadd_twice_idempotent (st : SimState) (k m : String)
    (h : m ∉ smembers st k) :
    (sadd st k [m]).1 = 1
    ∧ (sadd ((sadd st k [m]).2) k [m]).1 = 0
    ∧ List.count m (smembers ((sadd ((sadd st k [m]).2) k [m]).2) k) = 1
    ∧ ∀ key, dictGet st.sets key = none → smembers st key = [] := by
  have hcur : m ∉ (dictGet st.sets k).getD [] := h
  obtain ⟨hret1, -, hmem1, -⟩ := sadd_single st k m
  rw [if_neg hcur] at hret1 hmem1
  have hcur2 : (dictGet ((sadd st k [m]).2).sets k).getD []
      = (dictGet st.sets k).getD [] ++ [m] := hmem1
  obtain ⟨hret2, -, hmem2, -⟩ := sadd_single ((sadd st k [m]).2) k m
  have hm2 : m ∈ (dictGet ((sadd st k [m]).2).sets k).getD [] := by
    rw [hcur2]
    exact List.mem_append_right _ (List.mem_singleton_self m)
  rw [if_pos hm2] at hret2 hmem2
  refine ⟨hret1, hret2, ?_, ?_⟩
  · rw [smembers] at hmem2 ⊢
    rw [hmem2, hcur2, List.count_append]
    rw [List.count_eq_zero_of_not_mem hcur]
    simp
  · intro key hkey
    rw [smembers, hkey]
    rfl

/-- Witness for C8 on a fresh store. -/
theorem sadd_twice_idempotent_witness :
    ("1001" ∉ smembers initState "idx:orders:status:delivered")
    ∧ ((sadd initState "idx:orders:status:delivered" ["1001"]).1 = 1
      ∧ (sadd ((sadd initState "idx:orders:status:delivered" ["1001"]).2)
            "idx:orders:status:delivered" ["1001"]).1 = 0
      ∧ List.count "1001"
          (smembers ((sadd ((sadd initState "idx:orders:status:delivered"
              ["1001"]).2) "idx:orders:status:delivered" ["1001"]).2)
            "idx:orders:status:delivered") = 1
      ∧ ∀ key, dictGet initState.sets key = none →
          smembers initState key = []) :=
  ⟨by decide, sadd_twice_idempotent initState "idx:orders:status:delivered"
    "1001" (by decide)⟩

/-- C2 counterexample: with the single stored key `"xabc"`, the pattern
`"*abc"` should, per the claim's suffix rule, return exactly `["xabc"]`
(the spec-worded matcher agrees that `"xabc"` matches), but the code's
`keys` strips every `*` and does a PREFIX match with `"abc"`, returning
the empty list. -/
theorem keys_suffix_counterexample :
    "xabc" ∈ keys ((RedisSim.set initState "xabc" "v").2) "*"
    ∧ specPatternMatch "*abc" "xabc" = true
    ∧ keys ((RedisSim.set initState "xabc" "v").2) "*abc" = [] := by
  refine ⟨by decide, by decide, by decide⟩

/-- C2 amended: `keys "*"` returns all stored keys (data keys then set
keys); for every other pattern, the pattern with ALL asterisks removed
is used as a required PREFIX: a key is returned exactly when it is
stored and starts with that stripped literal.  (No suffix or substring
matching is performed.) -/
theorem keys_prefix_semantics (st : SimState) (pattern k : String)
    (h : pattern ≠ "*") :
    (k ∈ keys st pattern ↔
      k ∈ dictKeys st.data ++ dictKeys st.sets
        ∧ (pattern.data.filter (fun c => c != '*')).isPrefixOf k.data = true)
    ∧ keys st "*" = dictKeys st.data ++ dictKeys st.sets := by
  constructor
  · unfold keys
    rw [if_neg h]
    simp only [List.mem_filter, List.mem_append]
  · unfold keys
    rw [if_pos rfl]

/-- Witness for C2 amended: pattern `"customer:*"` over a store holding
`"customer:1"` and `"product:101"`. -/
theorem keys_prefix_semantics_witness :
    ("customer:*" ≠ "*")
    ∧ (("customer:1" ∈
          keys ((RedisSim.set ((RedisSim.set initState "customer:1" "a").2)
            "product:101" "b").2) "customer:*" ↔
        "customer:1" ∈
            dictKeys ((RedisSim.set ((RedisSim.set initState "customer:1"
              "a").2) "product:101" "b").2).data
              ++ dictKeys ((RedisSim.set ((RedisSim.set initState "customer:1"
              "a").2) "product:101" "b").2).sets
          ∧ ("customer:*".data.filter (fun c => c != '*')).isPrefixOf
              "customer:1".data = true)
      ∧ keys ((RedisSim.set ((RedisSim.set initState "customer:1" "a").2)
            "product:101" "b").2) "*"
          = dictKeys ((RedisSim.set ((RedisSim.set initState "customer:1"
              "a").2) "product:101" "b").2).data
            ++ dictKeys ((RedisSim.set ((RedisSim.set initState "customer:1"
              "a").2) "product:101" "b").2).sets) :=
  ⟨by decide,
    keys_prefix_semantics ((RedisSim.set ((RedisSim.set initState "customer:1"
      "a").2) "product:101" "b").2) "customer:*" "customer:1" (by decide)⟩

/-- C1 counterexample: after `set "k" "active"` the call
`hget "k" "act"` does NOT return a value or an absence signal: Python
evaluates `"act" in "active"` (substring test, true) and then
`"active"["act"]`, which raises `TypeError` — a per-call exception on a
well-formed non-empty key, refuting the claimed totality of every store
operation. -/
theorem hget_after_scalar_set_raises :
    hget ((RedisSim.set initState "k" "active").2) "k" "act"
      = Except.error "TypeError: string indices must be integers" := by
  rfl

/-- C1 amended: all store operations are total over well-formed
non-empty keys EXCEPT `hget`, which raises a `TypeError` exactly when
the key currently holds a scalar value of which the requested field is a
substring; in every other situation (missing key, hash value, scalar
value without the substring) `hget` returns a value or an explicit
absence. -/
theorem hget_error_characterization (st : SimState) (key field : String) :
    ((∃ e, hget st key field = Except.error e) ↔
      (∃ s, dictGet st.data key = some (RVal.str s)
        ∧ listIsInfix field.data s.data = true))
    ∧ (dictGet st.data key = none → hget st key field = Except.ok none)
    ∧ (∀ s, dictGet st.data key = some (RVal.str s) →
        listIsInfix field.data s.data = false →
        hget st key field = Except.ok none)
    ∧ (∀ m, dictGet st.data key = some (RVal.hash m) →
        hget st key field = Except.ok (dictGet m field)) := by
  refine ⟨?_, ?_, ?_, ?_⟩
  · cases hd : dictGet st.data key with
    | none =>
      unfold hget
      rw [hd]
      simp
    | some v =>
      cases v with
      | str s =>
        unfold hget
        rw [hd]
        by_cases hin : listIsInfix field.data s.data = true
        · simp [hin]
        · simp [hin]
      | hash m =>
        unfold hget
        rw [hd]
        simp
  · intro hd
    unfold hget
    rw [hd]
  · intro s hd hin
    unfold hget
    rw [hd]
    simp [hin]
  · intro m hd
    unfold hget
    rw [hd]

/-- Witness for C1 amended: on a fresh store the missing-key conjunct
yields an explicit absence. -/
theorem hget_error_characterization_witness :
    dictGet initState.data "customer:1" = none
    ∧ hget initState "customer:1" "email" = Except.ok none :=
  ⟨rfl, (hget_error_characterization initState "customer:1" "email").2.1 rfl⟩

/-- C9: `map_order` is a pure transformation producing exactly one
primary composite key `"order:" ++ order_id` whose value holds all six
order fields, plus exactly two SET-type secondary-index updates
(`idx:customer:{customer_id}:orders` and `idx:orders:status:{status}`)
each carrying the order id as a string member; a null status defaults
to `"pending"`. -/
theorem map_order_spec (row : OrderRow) :
    (row.status = none →
      dictGet (map_order row).main_value "status" = some "pending"
      ∧ (map_order row).indexes.map IndexEntry.key
          = ["idx:customer:" ++ toString row.customer_id ++ ":orders",
             "idx:orders:status:pending"])
    ∧ (map_order row).main_key = "order:" ++ toString row.order_id
    ∧ (map_order row).main_value.map Prod.fst
        = ["order_id", "customer_id", "order_date", "status",
           "total_amount", "shipping_address"]
    ∧ dictGet (map_order row).main_value "order_id"
        = some (toString row.order_id)
    ∧ dictGet (map_order row).main_value "customer_id"
        = some (toString row.customer_id)
    ∧ dictGet (map_order row).main_value "order_date" = some row.order_date
    ∧ dictGet (map_order row).main_value "status"
        = some (pyOrStr row.status "pending")
    ∧ dictGet (map_order row).main_value "total_amount"
        = some row.total_amount
    ∧ dictGet (map_order row).main_value "shipping_address"
        = some (pyOrStr row.shipping_address "")
    ∧ (map_order row).indexes.length = 2
    ∧ (map_order row).indexes
        = [⟨"idx:customer:" ++ toString row.customer_id ++ ":orders",
              toString row.order_id, some "SET"⟩,
           ⟨"idx:orders:status:" ++ pyOrStr row.status "pending",
              toString row.order_id, some "SET"⟩] := by
  refine ⟨?_, rfl, rfl, rfl, rfl, rfl, rfl, rfl, rfl, rfl, rfl⟩
  intro h
  constructor
  · simp [map_order, pyOrStr, h, dictGet]
  · simp [map_order, pyOrStr, h]

/-- Witness for C9: order row 1005 of the fixture, taken with a null
status, defaults to `"pending"` in both the record and the status
index. -/
theorem map_order_spec_witness :
    dictGet (map_order ⟨1005, 4, "2024-06-20", none, "850.0",
        some "321 Olaya Street, Riyadh"⟩).main_value "status"
      = some "pending"
    ∧ (map_order ⟨1005, 4, "2024-06-20", none, "850.0",
        some "321 Olaya Street, Riyadh"⟩).indexes.map IndexEntry.key
      = ["idx:customer:" ++ toString (4 : Int) ++ ":orders",
         "idx:orders:status:pending"] :=
  (map_order_spec ⟨1005, 4, "2024-06-20", none, "850.0",
      some "321 Olaya Street, Riyadh"⟩).1 rfl

/-- Well-formedness of a simulator state: neither storage dict binds a
key twice.  It holds for the fresh state and is preserved by every
operation, since dict updates only replace in place or append a key
that was absent. -/
def WF (st : SimState) : Prop :=
  (dictKeys st.data).Nodup ∧ (dictKeys st.sets).Nodup

theorem count_keys_if {α : Type} (d : List (String × α)) (k : String)
    (hnd : (dictKeys d).Nodup) :
    List.count k
      (if (dictGet d k).isSome then dictKeys d else dictKeys d ++ [k]) = 1 := by
  split
  case isTrue hsome =>
    exact List.count_eq_one_of_mem hnd ((dictGet_isSome_iff_mem_keys d k).mp hsome)
  case isFalse hnone =>
    have hk : k ∉ dictKeys d := fun hm =>
      hnone ((dictGet_isSome_iff_mem_keys d k).mpr hm)
    rw [List.count_append, List.count_eq_zero_of_not_mem hk]
    simp

theorem count_dictKeys_dictSet {α : Type} (d : List (String × α)) (k : String)
    (v : α) (hnd : (dictKeys d).Nodup) :
    List.count k (dictKeys (dictSet d k v)) = 1 := by
  rw [dictKeys_dictSet]
  exact count_keys_if d k hnd

/-- C10: scalar/hash storage (`self.data`) and set storage (`self.sets`)
are disjoint namespaces: after `sadd k [m]` followed by `set k v`, the
set still contains `m` while `get k` returns the scalar `v`; `set` and
`hset` never modify set storage; and a well-formed store in which `k` is
used both ways reports `k` twice in `keys "*"` — once per namespace. -/
theorem data_sets_namespaces_disjoint (st : SimState) (k m v : String)
    (hwf : WF st) :
    m ∈ smembers ((RedisSim.set ((sadd st k [m]).2) k v).2) k
    ∧ RedisSim.get ((RedisSim.set ((sadd st k [m]).2) k v).2) k
        = some (RVal.str v)
    ∧ (∀ st' key val, ((RedisSim.set st' key val).2).sets = st'.sets)
    ∧ (∀ st' key mp, ((hset st' key mp).2).sets = st'.sets)
    ∧ List.count k (keys ((RedisSim.set ((sadd st k [m]).2) k v).2) "*") = 2 := by
  obtain ⟨-, hdata, hmem, hkeys⟩ := sadd_single st k m
  refine ⟨?_, ?_, fun _ _ _ => rfl, fun _ _ _ => rfl, ?_⟩
  · have hs : smembers ((RedisSim.set ((sadd st k [m]).2) k v).2) k
        = smembers ((sadd st k [m]).2) k := rfl
    rw [hs, hmem]
    split
    case isTrue hin => exact hin
    case isFalse hin =>
      exact List.mem_append_right _ (List.mem_singleton_self m)
  · exact dictGet_dictSet_self _ _ _
  · have hk : keys ((RedisSim.set ((sadd st k [m]).2) k v).2) "*"
        = dictKeys ((RedisSim.set ((sadd st k [m]).2) k v).2).data
          ++ dictKeys ((RedisSim.set ((sadd st k [m]).2) k v).2).sets := by
      unfold keys
      rw [if_pos rfl]
    rw [hk, List.count_append]
    have h1 : List.count k
        (dictKeys ((RedisSim.set ((sadd st k [m]).2) k v).2).data) = 1 := by
      have hd : ((RedisSim.set ((sadd st k [m]).2) k v).2).data
          = dictSet st.data k (RVal.str v) := by
        rw [show ((RedisSim.set ((sadd st k [m]).2) k v).2).data
              = dictSet ((sadd st k [m]).2).data k (RVal.str v) from rfl, hdata]
      rw [hd]
      exact count_dictKeys_dictSet st.data k (RVal.str v) hwf.1
    have h2 : List.count k
        (dictKeys ((RedisSim.set ((sadd st k [m]).2) k v).2).sets) = 1 := by
      rw [show ((RedisSim.set ((sadd st k [m]).2) k v).2).sets
            = ((sadd st k [m]).2).sets from rfl]
      rw [hkeys]
      exact count_keys_if st.sets k hwf.2
    rw [h1, h2]

/-- Witness for C10 on the fresh (trivially well-formed) store. -/
theorem data_sets_namespaces_disjoint_witness :
    WF initState
    ∧ ("p1" ∈ smembers ((RedisSim.set ((sadd initState "dual" ["p1"]).2)
          "dual" "scalar").2) "dual"
      ∧ RedisSim.get ((RedisSim.set ((sadd initState "dual" ["p1"]).2)
          "dual" "scalar").2) "dual" = some (RVal.str "scalar")
      ∧ (∀ st' key val, ((RedisSim.set st' key val).2).sets = st'.sets)
      ∧ (∀ st' key mp, ((hset st' key mp).2).sets = st'.sets)
      ∧ List.count "dual" (keys ((RedisSim.set ((sadd initState "dual"
          ["p1"]).2) "dual" "scalar").2) "*") = 2) :=
  ⟨⟨List.nodup_nil, List.nodup_nil⟩,
    data_sets_namespaces_disjoint initState "dual" "p1" "scalar"
      ⟨List.nodup_nil, List.nodup_nil⟩⟩
